import Mathlib

/-!
Verification of the subtitle-translation pipeline of the Stremio add-on.

JavaScript strings are modelled as `List Char` (`Str`).  Each definition
mirrors one function of the source: the VTT cue parser and serializer, the
batch splitter, the Gemini batch-translation reconciliation, the in-memory
translation cache with its 24-hour TTL, and the public entry point
`translateSubtitle`.  External collaborators (the `crypto` md5 digest, the
npm `subtitle` SRT parser and the Gemini HTTP call) are parameters: the md5
digest is an arbitrary function `Str → Str`, the SRT parser and the model
call return `Except Unit _`, where `Except.error` models a thrown
exception / rejected promise.
-/

/-- JavaScript strings are modelled as lists of characters. -/
abbrev Str : Type := List Char

/-- Coerce a Lean string literal into the `Str` model. -/
def str (s : String) : Str := s.data

/-- One subtitle cue, as built by the parser in the source: `start` and
`end` are the raw timestamp strings of the timing line, `text` the
accumulated display text.  The JS field `end` is called `endT` here because
`end` is a Lean keyword. -/
structure Cue where
  start : Str
  endT : Str
  text : Str
deriving DecidableEq, Repr

/-- The whitespace characters stripped by `String.prototype.trim` that can
occur in this pipeline (ASCII whitespace). -/
def isWsChar (c : Char) : Bool :=
  c = ' ' || c = '\t' || c = '\n' || c = '\r' || c = '\x0b' || c = '\x0c'

/-- JS `s.trim()`. -/
def jsTrim (s : Str) : Str :=
  ((s.dropWhile isWsChar).reverse.dropWhile isWsChar).reverse

/-- JS `s.split('\n')`. -/
def jsSplitNl : Str → List Str
  | [] => [[]]
  | c :: cs =>
    if c = '\n' then [] :: jsSplitNl cs
    else
      match jsSplitNl cs with
      | [] => [[c]]
      | l :: ls => (c :: l) :: ls

/-- JS `s.split('\n---\n')` — the explicit separator used between batch
segments in the Gemini prompt and response. -/
def jsSplitSep : Str → List Str
  | '\n' :: '-' :: '-' :: '-' :: '\n' :: rest => [] :: jsSplitSep rest
  | c :: cs =>
    match jsSplitSep cs with
    | [] => [[c]]
    | l :: ls => (c :: l) :: ls
  | [] => [[]]

/-- Decimal digits of a natural number, fuel-driven so that it reduces in
the kernel.  `natToChars n` is JS `` `${n}` `` for a whole number. -/
def natToCharsCore : Nat → Nat → List Char
  | 0, _ => []
  | fuel + 1, n =>
    if n < 10 then [Nat.digitChar n]
    else natToCharsCore fuel (n / 10) ++ [Nat.digitChar (n % 10)]

/-- JS number-to-string for the 1-based cue index. -/
def natToChars (n : Nat) : Str := natToCharsCore (n + 1) n

/-- Matcher for the first regex alternative `\d{2}:\d{2}:\d{2}\.\d{3}`:
on success returns the twelve consumed characters and the rest. -/
def matchLong : Str → Option (Str × Str)
  | a :: b :: c :: d :: e :: f :: g :: h :: i :: j :: k :: l :: rest =>
    if a.isDigit && b.isDigit && c == ':' && d.isDigit && e.isDigit &&
        f == ':' && g.isDigit && h.isDigit && i == '.' && j.isDigit &&
        k.isDigit && l.isDigit then
      some ([a, b, c, d, e, f, g, h, i, j, k, l], rest)
    else none
  | _ => none

/-- Matcher for the second regex alternative `\d{2}:\d{2}\.\d{3}`. -/
def matchShort : Str → Option (Str × Str)
  | a :: b :: c :: d :: e :: f :: g :: h :: i :: rest =>
    if a.isDigit && b.isDigit && c == ':' && d.isDigit && e.isDigit &&
        f == '.' && g.isDigit && h.isDigit && i.isDigit then
      some ([a, b, c, d, e, f, g, h, i], rest)
    else none
  | _ => none

/-- The timestamp alternation of the timing-line regex: the long form is
tried first, exactly as the regex alternation is ordered. -/
def matchTs (s : Str) : Option (Str × Str) :=
  match matchLong s with
  | some r => some r
  | none => matchShort s

/-- The literal `· --> ·` separator of the timing-line regex. -/
def matchArrow : Str → Option Str
  | ' ' :: '-' :: '-' :: '>' :: ' ' :: rest => some rest
  | _ => none

/-- Attempt of the whole timing regex at one position, with the regex
engine's backtracking over the two timestamp alternatives for the first
group. -/
def matchPatAt (s : Str) : Option (Str × Str) :=
  let cont : Str × Str → Option (Str × Str) := fun p =>
    match matchArrow p.2 with
    | some r2 =>
      match matchTs r2 with
      | some q => some (p.1, q.1)
      | none => none
    | none => none
  match matchLong s with
  | some p =>
    match cont p with
    | some res => some res
    | none =>
      match matchShort s with
      | some q => cont q
      | none => none
  | none =>
    match matchShort s with
    | some q => cont q
    | none => none

/-- JS `line.match(timingRegex)`: scan left to right for the first
position where the timing pattern matches and return the two captured
timestamps. -/
def findTiming : Str → Option (Str × Str)
  | [] => none
  | c :: cs =>
    match matchPatAt (c :: cs) with
    | some r => some r
    | none => findTiming cs

/-- JS `/^\d+$/` test on a (trimmed, already known non-empty) line. -/
def isIndexLine (l : Str) : Bool := l.all Char.isDigit

/-- The `for` loop of `parseSubtitleContent`'s VTT branch.  The inner
`while` that skips a NOTE block (`while (i < lines.length &&
lines[i].trim()) i++` followed by the loop's own `i++`) is modelled by the
`skipping` flag: while it is set, non-blank lines are consumed, and the
first blank line is consumed as well and clears the flag. -/
def parseVTTLines : List Str → Bool → Option Cue → List Cue → List Cue
  | [], _, cur, acc => acc ++ cur.toList
  | l :: rest, true, cur, acc =>
    if (jsTrim l).isEmpty then parseVTTLines rest false cur acc
    else parseVTTLines rest true cur acc
  | l :: rest, false, cur, acc =>
    let line := jsTrim l
    if line.isEmpty || line == str ("WEBVTT") then
      parseVTTLines rest false cur acc
    else if (str ("NOTE")).isPrefixOf line then
      parseVTTLines rest true cur acc
    else
      match findTiming line with
      | some se => parseVTTLines rest false (some ⟨se.1, se.2, []⟩) (acc ++ cur.toList)
      | none =>
        match cur with
        | some c =>
          if isIndexLine line then parseVTTLines rest false (some c) acc
          else
            parseVTTLines rest false
              (some ⟨c.start, c.endT, c.text ++ (if c.text.isEmpty then [] else ['\n']) ++ line⟩) acc
        | none => parseVTTLines rest false none acc

/-- `parseSubtitleContent(content, format)`.  For `'srt'` the external npm
`subtitle` parser is invoked (parameter `srtParse`); a throw is caught by
the function's own `try`/`catch`, which returns `[]`.  Every other format
string takes the regex-based VTT branch. -/
def parseSubtitleContent (srtParse : Str → Except Unit (List Cue))
    (content : Str) (format : Str) : List Cue :=
  if format = str ("srt") then
    match srtParse content with
    | Except.ok cs => cs
    | Except.error _ => []
  else
    parseVTTLines (jsSplitNl content) false none []

/-- The cue blocks appended by `convertCuesToVTT`'s `forEach`, starting at
0-based index `i` (the source writes `index + 1`). -/
def vttBlocks : Nat → List Cue → Str
  | _, [] => []
  | i, c :: rest =>
    natToChars (i + 1) ++ '\n' ::
      (c.start ++ str (" --> ") ++ c.endT ++ '\n' ::
        (c.text ++ '\n' :: '\n' :: vttBlocks (i + 1) rest))

/-- `convertCuesToVTT(cues)`: the `WEBVTT` banner, a blank line, then for
every cue its 1-based index, timing line, text and a blank separator. -/
def convertCuesToVTT (cues : List Cue) : Str :=
  str ("WEBVTT\n\n") ++ vttBlocks 0 cues

/-- The static `languageMap` object literal. -/
def languageMap : List (String × String) :=
  [("en", "English"), ("el", "Greek"), ("fr", "French"), ("es", "Spanish"),
   ("de", "German"), ("it", "Italian"), ("pt", "Portuguese"), ("ru", "Russian"),
   ("ja", "Japanese"), ("ko", "Korean"), ("zh", "Chinese"), ("ar", "Arabic"),
   ("hi", "Hindi"), ("tr", "Turkish"), ("nl", "Dutch"), ("sv", "Swedish"),
   ("pl", "Polish"), ("da", "Danish"), ("fi", "Finnish"), ("no", "Norwegian"),
   ("cs", "Czech"), ("hu", "Hungarian"), ("ro", "Romanian"), ("bg", "Bulgarian"),
   ("hr", "Croatian"), ("sr", "Serbian"), ("sk", "Slovak"), ("sl", "Slovenian"),
   ("uk", "Ukrainian"), ("vi", "Vietnamese"), ("th", "Thai"), ("id", "Indonesian"),
   ("ms", "Malay"), ("he", "Hebrew"), ("fa", "Persian")]

/-- `getLanguageName(langCode)`: map lookup with identity fallback for
unknown codes. -/
def getLanguageName (langCode : Str) : Str :=
  match languageMap.find? (fun p => p.1.data == langCode) with
  | some p => p.2.data
  | none => langCode

/-- The Gemini prompt built for one batch: the instruction header followed
by the batch texts joined with the `\n---\n` separator. -/
def buildPrompt (sourceLang targetLang : Str) (textsToTranslate : List Str) : Str :=
  str ("Translate the following subtitles from ") ++ getLanguageName sourceLang ++
    str (" to ") ++ getLanguageName targetLang ++
    str (". \nKeep the same meaning and tone. Return ONLY the translations in order, one per line, with no additional text:\n\n") ++
    List.intercalate (str ("\n---\n")) textsToTranslate

/-- Reconciliation of one batch's model response text with the batch:
split on the explicit `\n---\n` separator; on a count mismatch, re-split
on plain newlines dropping blank lines and take the first `batch.length`
segments if there are enough; otherwise fall back to the original texts. -/
def processBatch (batch : List Cue) (translatedText : Str) : List Str :=
  let textsToTranslate := batch.map (fun c => c.text)
  let translations := jsSplitSep translatedText
  if translations.length ≠ batch.length then
    let simpleSplit := (jsSplitNl translatedText).filter (fun l => !(jsTrim l).isEmpty)
    if batch.length ≤ simpleSplit.length then simpleSplit.take batch.length
    else textsToTranslate
  else translations

/-- The `Promise.all(batches.map(...))` step.  `model i prompt` is the
external Gemini call for batch `i`: `Except.error` models a rejected
request (network/auth failure) or a response with a malformed envelope
(which the batch closure turns into a thrown `Error`); `Except.ok` carries
the extracted response text.  One rejection rejects the whole
`Promise.all`. -/
def runBatches (model : Nat → Str → Except Unit Str) (sourceLang targetLang : Str) :
    Nat → List (List Cue) → Except Unit (List (List Str))
  | _, [] => Except.ok []
  | i, batch :: rest =>
    match model i (buildPrompt sourceLang targetLang (batch.map (fun c => c.text))) with
    | Except.error e => Except.error e
    | Except.ok resp =>
      match runBatches model sourceLang targetLang (i + 1) rest with
      | Except.error e => Except.error e
      | Except.ok others => Except.ok (processBatch batch resp :: others)

/-- The batching loop `for (let i = 0; i < cues.length; i += batchSize)`
with `batchSize = 10`: consecutive slices of at most ten cues. -/
def makeBatches : List Cue → List (List Cue)
  | [] => []
  | c1 :: c2 :: c3 :: c4 :: c5 :: c6 :: c7 :: c8 :: c9 :: c10 :: c11 :: rest =>
    [c1, c2, c3, c4, c5, c6, c7, c8, c9, c10] :: makeBatches (c11 :: rest)
  | l => [l]

/-- The reassembly loop: walk the flattened translations with a running
cue index, overwriting `cues[i].text` with the trimmed translation while
`i < cues.length`; surplus translations are dropped, surplus cues keep
their text. -/
def applyTranslations : List Cue → List Str → List Cue
  | cues, [] => cues
  | [], _ => []
  | c :: cs, t :: ts => ⟨c.start, c.endT, jsTrim t⟩ :: applyTranslations cs ts

/-- The `NodeCache` translation cache: association list of key, value and
absolute expiry instant (insertion time plus the 24-hour `stdTTL`,
in seconds). -/
abbrev Cache : Type := List (Str × Str × Nat)

/-- `translationCache.get(key)` at instant `now`: an entry is observable
only before its expiry (lazy TTL eviction). -/
def cacheGet (now : Nat) (cache : Cache) (key : Str) : Option Str :=
  match cache.find? (fun e => e.1 == key) with
  | some e => if now < e.2.2 then some e.2.1 else none
  | none => none

/-- `translationCache.set(key, value)` at instant `now`: overwrite the key
with expiry `now + 86400`. -/
def cacheSet (now : Nat) (cache : Cache) (key val : Str) : Cache :=
  (key, val, now + 86400) :: cache.filter (fun e => !(e.1 == key))

/-- The cache key `` `${contentHash}_${sourceLang}_${targetLang}` ``,
where `contentHash` is the external md5 hex digest (parameter). -/
def cacheKeyOf (md5hex : Str → Str) (content sourceLang targetLang : Str) : Str :=
  md5hex content ++ '_' :: sourceLang ++ '_' :: targetLang

/-- `content.trim().startsWith('WEBVTT') ? 'vtt' : 'srt'`. -/
def detectFormat (content : Str) : Str :=
  if (str ("WEBVTT")).isPrefixOf (jsTrim content) then str ("vtt") else str ("srt")

/-- Result of one `translateSubtitle` call: the returned string, the cache
after the call, and how many Gemini requests the call issued. -/
structure TransResult where
  output : Str
  cache : Cache
  modelCalls : Nat
deriving DecidableEq, Repr

/-- `translateSubtitle(content, sourceLang, targetLang)`.  The cache
lookup happens before the `try`; `if (cachedTranslation)` is JS truthiness,
so an empty cached string would be treated as a miss.  Inside the `try`:
decode, batch, translate via `Promise.all`, reassemble, re-encode (always
as VTT) and cache.  The `catch` returns the original content, so a hard
failure of any single batch falls back for the whole document.  Zero cues
also return the original content, without touching the cache. -/
def translateSubtitle (md5hex : Str → Str) (srtParse : Str → Except Unit (List Cue))
    (model : Nat → Str → Except Unit Str) (now : Nat) (cache : Cache)
    (content sourceLang targetLang : Str) : TransResult :=
  let cacheKey := cacheKeyOf md5hex content sourceLang targetLang
  let cached := (cacheGet now cache cacheKey).getD []
  if cached.isEmpty then
    let format := detectFormat content
    let cues := parseSubtitleContent srtParse content format
    if cues.length = 0 then ⟨content, cache, 0⟩
    else
      let batches := makeBatches cues
      match runBatches model sourceLang targetLang 0 batches with
      | Except.error _ => ⟨content, cache, batches.length⟩
      | Except.ok translatedBatches =>
        let translatedContent := convertCuesToVTT (applyTranslations cues translatedBatches.flatten)
        ⟨translatedContent, cacheSet now cache cacheKey translatedContent, batches.length⟩
  else ⟨cached, cache, 0⟩

/-! ## Spec predicates and concrete fixtures -/

/-- Stand-in for the external md5 digest in concrete scenarios (any
function is a legitimate instantiation of the parameter). -/
def exMd5 : Str → Str := fun _ => []

/-- External SRT parser that throws (its exception is swallowed by
`parseSubtitleContent`, which returns no cues). -/
def exSrtFail : Str → Except Unit (List Cue) := fun _ => Except.error ()

/-- Model oracle answering every batch with the single segment `Hi`. -/
def exModelHi : Nat → Str → Except Unit Str := fun _ _ => Except.ok (str ("Hi"))

/-- Model oracle whose every request fails hard. -/
def exModelErr : Nat → Str → Except Unit Str := fun _ _ => Except.error ()

/-- A one-cue VTT document. -/
def exContent1 : Str := str ("WEBVTT\n\n1\n00:00:01.000 --> 00:00:02.000\nHello")

/-- An SRT-detected input document together with an external SRT parse
result for it, as the npm `subtitle` library would deliver cues. -/
def exSrtContent : Str := str ("1\n00:00:01,000 --> 00:00:02,000\nHello")

/-- External SRT parser returning the single cue of `exSrtContent`. -/
def exSrtParse : Str → Except Unit (List Cue) :=
  fun _ => Except.ok [⟨str ("00:00:01,000"), str ("00:00:02,000"), str ("Hello")⟩]

/-- Timestamps shared by the eleven-cue fixture. -/
def exTsA : Str := str ("00:00:01.000")

/-- Second timestamp of the eleven-cue fixture. -/
def exTsB : Str := str ("00:00:02.000")

/-- A fixture cue with the shared timestamps. -/
def exCue (t : String) : Cue := ⟨exTsA, exTsB, str t⟩

/-- Eleven cues — two batches (ten plus one). -/
def exCues11 : List Cue :=
  [exCue ("A1"), exCue ("A2"), exCue ("A3"), exCue ("A4"), exCue ("A5"), exCue ("A6"),
   exCue ("A7"), exCue ("A8"), exCue ("A9"), exCue ("A10"), exCue ("A11")]

/-- The eleven-cue document. -/
def exContent11 : Str := convertCuesToVTT exCues11

/-- Oracle failing hard on batch 0 and answering batch 1 (a single cue)
with the single segment `Hi`. -/
def exModelC3 : Nat → Str → Except Unit Str :=
  fun i _ => if i = 0 then Except.error () else Except.ok (str ("Hi"))

/-- The output C3 predicts at this input: batch 0 keeps its original
texts, batch 1 is translated, and the whole document is re-encoded. -/
def exExpectedC3 : Str := convertCuesToVTT (exCues11.take 10 ++ [⟨exTsA, exTsB, str ("Hi")⟩])

/-- The condition under which one batch takes the original-texts fallback:
the separator split mismatches the batch size and the newline re-split has
too few non-blank lines. -/
def mismatchFallback (batch : List Cue) (resp : Str) : Prop :=
  (jsSplitSep resp).length ≠ batch.length ∧
    ((jsSplitNl resp).filter (fun l => !(jsTrim l).isEmpty)).length < batch.length

/-- A two-cue document for the all-fallback scenario. -/
def exContent2 : Str := convertCuesToVTT [exCue ("B1"), exCue ("B2")]

/-- Oracle whose response `a` mismatches a two-cue batch on both split
tiers (one separator segment, one non-blank line). -/
def exModelA : Nat → Str → Except Unit Str := fun _ _ => Except.ok (str ("a"))

/-- A timestamp string that the timing regex recognizes exactly (one of
the two syntaxes, nothing more). -/
@[reducible] def validTs (s : Str) : Prop := matchTs s = some (s, [])

/-- A text line the VTT parser hands back unchanged: invariant under
trim, non-empty, not the banner, not an annotation opener, not a timing
line and not a bare cue-index line. -/
@[reducible] def textLineOk (l : Str) : Prop :=
  jsTrim l = l ∧ l ≠ [] ∧ l ≠ str ("WEBVTT") ∧
    (str ("NOTE")).isPrefixOf l = false ∧ findTiming l = none ∧ isIndexLine l = false

/-- A cue the codec round-trips: exact timestamps and benign text
lines. -/
@[reducible] def validCue (c : Cue) : Prop :=
  validTs c.start ∧ validTs c.endT ∧ ∀ l ∈ jsSplitNl c.text, textLineOk l

/-- The line sequence `convertCuesToVTT` contributes after the banner and
its blank line, as the parser will see it after the newline split. -/
def encLines : Nat → List Cue → List Str
  | _, [] => [[]]
  | i, c :: rest =>
    natToChars (i + 1) :: (c.start ++ str (" --> ") ++ c.endT) ::
      (jsSplitNl c.text ++ ([] :: encLines (i + 1) rest))

/-! ## Path lemmas for `translateSubtitle` -/

/-- On a cache miss, when decode yields zero cues the call returns the
original content, leaves the cache untouched and issues no model call. -/
theorem translateSubtitle_miss_zeroCues (md5hex : Str → Str)
    (srtParse : Str → Except Unit (List Cue)) (model : Nat → Str → Except Unit Str)
    (now : Nat) (cache : Cache) (content sourceLang targetLang : Str)
    (hmiss : (cacheGet now cache (cacheKeyOf md5hex content sourceLang targetLang)).getD [] = [])
    (hcues : parseSubtitleContent srtParse content (detectFormat content) = []) :
    translateSubtitle md5hex srtParse model now cache content sourceLang targetLang =
      ⟨content, cache, 0⟩ := by
  simp only [translateSubtitle, hmiss, hcues, List.isEmpty_nil, List.length_nil, if_true]

/-- On a cache miss with at least one cue, a rejected `Promise.all` makes
the `catch` return the original content; every batch request was already
issued. -/
theorem translateSubtitle_miss_error (md5hex : Str → Str)
    (srtParse : Str → Except Unit (List Cue)) (model : Nat → Str → Except Unit Str)
    (now : Nat) (cache : Cache) (content sourceLang targetLang : Str)
    (hmiss : (cacheGet now cache (cacheKeyOf md5hex content sourceLang targetLang)).getD [] = [])
    (hcues : parseSubtitleContent srtParse content (detectFormat content) ≠ [])
    (herr : runBatches model sourceLang targetLang 0
        (makeBatches (parseSubtitleContent srtParse content (detectFormat content))) =
        Except.error ()) :
    translateSubtitle md5hex srtParse model now cache content sourceLang targetLang =
      ⟨content, cache,
        (makeBatches (parseSubtitleContent srtParse content (detectFormat content))).length⟩ := by
  simp only [translateSubtitle, hmiss, List.isEmpty_nil, if_true, herr]
  rw [if_neg (by simpa using hcues)]

/-- On a cache miss with at least one cue and a fulfilled `Promise.all`,
the call returns the re-encoded document, stores it in the cache, and
issued one model request per batch. -/
theorem translateSubtitle_miss_ok (md5hex : Str → Str)
    (srtParse : Str → Except Unit (List Cue)) (model : Nat → Str → Except Unit Str)
    (now : Nat) (cache : Cache) (content sourceLang targetLang : Str)
    (tb : List (List Str))
    (hmiss : (cacheGet now cache (cacheKeyOf md5hex content sourceLang targetLang)).getD [] = [])
    (hcues : parseSubtitleContent srtParse content (detectFormat content) ≠ [])
    (hok : runBatches model sourceLang targetLang 0
        (makeBatches (parseSubtitleContent srtParse content (detectFormat content))) =
        Except.ok tb) :
    translateSubtitle md5hex srtParse model now cache content sourceLang targetLang =
      ⟨convertCuesToVTT (applyTranslations
          (parseSubtitleContent srtParse content (detectFormat content)) tb.flatten),
        cacheSet now cache (cacheKeyOf md5hex content sourceLang targetLang)
          (convertCuesToVTT (applyTranslations
            (parseSubtitleContent srtParse content (detectFormat content)) tb.flatten)),
        (makeBatches (parseSubtitleContent srtParse content (detectFormat content))).length⟩ := by
  simp only [translateSubtitle, hmiss, List.isEmpty_nil, if_true, hok]
  rw [if_neg (by simpa using hcues)]

/-! ## Reassembly preserves count, order and timing -/

/-- Reassembly never changes the cue count. -/
theorem applyTranslations_length (cues : List Cue) :
    ∀ ts : List Str, (applyTranslations cues ts).length = cues.length := by
  induction cues with
  | nil => intro ts; cases ts <;> rfl
  | cons c cs ih =>
    intro ts
    cases ts with
    | nil => rfl
    | cons t ts => simp [applyTranslations, ih]

/-- Reassembly never changes any `start` timestamp nor the cue order. -/
theorem applyTranslations_map_start (cues : List Cue) :
    ∀ ts : List Str, (applyTranslations cues ts).map (fun c => c.start) =
      cues.map (fun c => c.start) := by
  induction cues with
  | nil => intro ts; cases ts <;> rfl
  | cons c cs ih =>
    intro ts
    cases ts with
    | nil => rfl
    | cons t ts => simp [applyTranslations, ih]

/-- Reassembly never changes any `end` timestamp nor the cue order. -/
theorem applyTranslations_map_endT (cues : List Cue) :
    ∀ ts : List Str, (applyTranslations cues ts).map (fun c => c.endT) =
      cues.map (fun c => c.endT) := by
  induction cues with
  | nil => intro ts; cases ts <;> rfl
  | cons c cs ih =>
    intro ts
    cases ts with
    | nil => rfl
    | cons t ts => simp [applyTranslations, ih]

/-! ## C1 — top-level failure semantics -/

/-- C1: `translateSubtitle` is a total function into strings (it cannot
raise — every fallible step is behind `Except` and handled), and whenever
an unexpected error occurs after the cache lookup (here: the `Promise.all`
of model calls rejecting, which is the one fallible step of the embedding,
since decoding failures are swallowed inside `parseSubtitleContent` and
batching/reassembly/encoding/cache write are total), the returned string
is the original input content verbatim. -/
theorem translateSubtitle_unexpected_error_returns_input (md5hex : Str → Str)
    (srtParse : Str → Except Unit (List Cue)) (model : Nat → Str → Except Unit Str)
    (now : Nat) (cache : Cache) (content sourceLang targetLang : Str)
    (hmiss : (cacheGet now cache (cacheKeyOf md5hex content sourceLang targetLang)).getD [] = [])
    (herr : runBatches model sourceLang targetLang 0
        (makeBatches (parseSubtitleContent srtParse content (detectFormat content))) =
        Except.error ()) :
    (translateSubtitle md5hex srtParse model now cache content sourceLang targetLang).output =
      content := by
  by_cases hc : parseSubtitleContent srtParse content (detectFormat content) = []
  · rw [translateSubtitle_miss_zeroCues md5hex srtParse model now cache content
      sourceLang targetLang hmiss hc]
  · rw [translateSubtitle_miss_error md5hex srtParse model now cache content
      sourceLang targetLang hmiss hc herr]

/-- C1 witness: a concrete one-cue document with a hard-failing model
call; the call returns the input verbatim. -/
theorem translateSubtitle_unexpected_error_returns_input_witness :
    ((cacheGet 0 [] (cacheKeyOf exMd5 exContent1 (str ("en")) (str ("el")))).getD [] = [] ∧
      runBatches exModelErr (str ("en")) (str ("el")) 0
        (makeBatches (parseSubtitleContent exSrtFail exContent1 (detectFormat exContent1))) =
        Except.error ()) ∧
    (translateSubtitle exMd5 exSrtFail exModelErr 0 [] exContent1
        (str ("en")) (str ("el"))).output = exContent1 :=
  ⟨⟨by decide, by rfl⟩,
    translateSubtitle_unexpected_error_returns_input exMd5 exSrtFail exModelErr 0 []
      exContent1 (str ("en")) (str ("el")) (by decide) (by rfl)⟩

/-! ## C8 — zero cues: no-op, no model call, no cache write -/

/-- C8: when decode yields zero cues (and the lookup missed, so the
decode step is reached), `translateSubtitle` returns the original content
unchanged, issues no model call, and leaves the cache exactly as it
was. -/
theorem translateSubtitle_zero_cues_noop (md5hex : Str → Str)
    (srtParse : Str → Except Unit (List Cue)) (model : Nat → Str → Except Unit Str)
    (now : Nat) (cache : Cache) (content sourceLang targetLang : Str)
    (hmiss : (cacheGet now cache (cacheKeyOf md5hex content sourceLang targetLang)).getD [] = [])
    (hcues : parseSubtitleContent srtParse content (detectFormat content) = []) :
    (translateSubtitle md5hex srtParse model now cache content sourceLang targetLang).output =
        content ∧
      (translateSubtitle md5hex srtParse model now cache content sourceLang targetLang).cache =
        cache ∧
      (translateSubtitle md5hex srtParse model now cache content sourceLang
          targetLang).modelCalls = 0 := by
  rw [translateSubtitle_miss_zeroCues md5hex srtParse model now cache content
    sourceLang targetLang hmiss hcues]
  exact ⟨rfl, rfl, rfl⟩

/-- C8 witness: malformed input (no timing line anywhere, SRT parser
throws) decodes to zero cues; the call is a complete no-op. -/
theorem translateSubtitle_zero_cues_noop_witness :
    ((cacheGet 7 [] (cacheKeyOf exMd5 (str ("just a line")) (str ("en")) (str ("el")))).getD [] =
        [] ∧
      parseSubtitleContent exSrtFail (str ("just a line"))
        (detectFormat (str ("just a line"))) = []) ∧
    (translateSubtitle exMd5 exSrtFail exModelHi 7 [] (str ("just a line"))
        (str ("en")) (str ("el"))).output = str ("just a line") ∧
    (translateSubtitle exMd5 exSrtFail exModelHi 7 [] (str ("just a line"))
        (str ("en")) (str ("el"))).cache = [] ∧
    (translateSubtitle exMd5 exSrtFail exModelHi 7 [] (str ("just a line"))
        (str ("en")) (str ("el"))).modelCalls = 0 :=
  ⟨⟨by decide, by decide⟩,
    translateSubtitle_zero_cues_noop exMd5 exSrtFail exModelHi 7 [] (str ("just a line"))
      (str ("en")) (str ("el")) (by decide) (by decide)⟩

/-! ## C4 — two-tier mismatch fallback inside one batch -/

/-- C4: when the split of a batch response on the explicit `\n---\n`
separator does not match the batch's cue count, the response is re-split
on plain newlines with blank lines dropped; with at least `batch.length`
such segments exactly the first `batch.length` of them become the batch's
texts (applied in order by the reassembly step), and otherwise every cue
of the batch keeps its original text. -/
theorem processBatch_mismatch_two_tier (batch : List Cue) (resp : Str)
    (hm : (jsSplitSep resp).length ≠ batch.length) :
    (batch.length ≤ ((jsSplitNl resp).filter (fun l => !(jsTrim l).isEmpty)).length →
        processBatch batch resp =
          ((jsSplitNl resp).filter (fun l => !(jsTrim l).isEmpty)).take batch.length) ∧
      (((jsSplitNl resp).filter (fun l => !(jsTrim l).isEmpty)).length < batch.length →
        processBatch batch resp = batch.map (fun c => c.text)) := by
  constructor
  · intro hge
    simp only [processBatch, if_pos hm, if_pos hge]
  · intro hlt
    simp only [processBatch, if_pos hm, if_neg (Nat.not_le_of_lt hlt)]

/-- C4 witness: a two-cue batch whose response has no separator (one
`\n---\n` segment) but three newline-separated non-blank lines: the first
two lines are taken; and a second response with too few lines falls back
to the original texts. -/
theorem processBatch_mismatch_two_tier_witness :
    ((jsSplitSep (str ("a\nb\nc"))).length ≠
        ([⟨[], [], str ("x")⟩, ⟨[], [], str ("y")⟩] : List Cue).length ∧
      processBatch [⟨[], [], str ("x")⟩, ⟨[], [], str ("y")⟩] (str ("a\nb\nc")) =
        [str ("a"), str ("b")]) ∧
    ((jsSplitSep []).length ≠ ([⟨[], [], str ("x")⟩, ⟨[], [], str ("y")⟩] : List Cue).length ∧
      processBatch [⟨[], [], str ("x")⟩, ⟨[], [], str ("y")⟩] [] = [str ("x"), str ("y")]) :=
  ⟨⟨by decide,
      ((processBatch_mismatch_two_tier [⟨[], [], str ("x")⟩, ⟨[], [], str ("y")⟩]
        (str ("a\nb\nc")) (by decide)).1 (by decide)).trans (by decide)⟩,
    ⟨by decide,
      ((processBatch_mismatch_two_tier [⟨[], [], str ("x")⟩, ⟨[], [], str ("y")⟩]
        [] (by decide)).2 (by decide)).trans (by decide)⟩⟩

/-! ## C5 — reassembly: count, order and timing preservation -/

/-- C5: on the translated path, the document that gets encoded has
exactly the cues of the decoded source document — same count, same order,
every `start` and `end` unchanged; only the `text` fields were
rewritten. -/
theorem translateSubtitle_preserves_count_order_timing (md5hex : Str → Str)
    (srtParse : Str → Except Unit (List Cue)) (model : Nat → Str → Except Unit Str)
    (now : Nat) (cache : Cache) (content sourceLang targetLang : Str)
    (tb : List (List Str))
    (hmiss : (cacheGet now cache (cacheKeyOf md5hex content sourceLang targetLang)).getD [] = [])
    (hcues : parseSubtitleContent srtParse content (detectFormat content) ≠ [])
    (hok : runBatches model sourceLang targetLang 0
        (makeBatches (parseSubtitleContent srtParse content (detectFormat content))) =
        Except.ok tb) :
    (translateSubtitle md5hex srtParse model now cache content sourceLang targetLang).output =
        convertCuesToVTT (applyTranslations
          (parseSubtitleContent srtParse content (detectFormat content)) tb.flatten) ∧
      (applyTranslations (parseSubtitleContent srtParse content (detectFormat content))
          tb.flatten).length =
        (parseSubtitleContent srtParse content (detectFormat content)).length ∧
      (applyTranslations (parseSubtitleContent srtParse content (detectFormat content))
          tb.flatten).map (fun c => c.start) =
        (parseSubtitleContent srtParse content (detectFormat content)).map (fun c => c.start) ∧
      (applyTranslations (parseSubtitleContent srtParse content (detectFormat content))
          tb.flatten).map (fun c => c.endT) =
        (parseSubtitleContent srtParse content (detectFormat content)).map (fun c => c.endT) := by
  refine ⟨?_, applyTranslations_length _ _, applyTranslations_map_start _ _,
    applyTranslations_map_endT _ _⟩
  rw [translateSubtitle_miss_ok md5hex srtParse model now cache content sourceLang targetLang
    tb hmiss hcues hok]

/-- C5 witness: the one-cue document translated by the `Hi` oracle keeps
count, order and both timestamps. -/
theorem translateSubtitle_preserves_count_order_timing_witness :
    ((cacheGet 0 [] (cacheKeyOf exMd5 exContent1 (str ("en")) (str ("el")))).getD [] = [] ∧
      parseSubtitleContent exSrtFail exContent1 (detectFormat exContent1) ≠ [] ∧
      runBatches exModelHi (str ("en")) (str ("el")) 0
        (makeBatches (parseSubtitleContent exSrtFail exContent1 (detectFormat exContent1))) =
        Except.ok [[str ("Hi")]]) ∧
    (translateSubtitle exMd5 exSrtFail exModelHi 0 [] exContent1 (str ("en"))
        (str ("el"))).output =
      convertCuesToVTT (applyTranslations
        (parseSubtitleContent exSrtFail exContent1 (detectFormat exContent1))
        ([[str ("Hi")]] : List (List Str)).flatten) ∧
    (applyTranslations (parseSubtitleContent exSrtFail exContent1 (detectFormat exContent1))
        ([[str ("Hi")]] : List (List Str)).flatten).map (fun c => c.start) =
      (parseSubtitleContent exSrtFail exContent1 (detectFormat exContent1)).map
        (fun c => c.start) :=
  ⟨⟨by decide, by decide, by rfl⟩,
    (translateSubtitle_preserves_count_order_timing exMd5 exSrtFail exModelHi 0 [] exContent1
      (str ("en")) (str ("el")) [[str ("Hi")]] (by decide) (by decide) (by rfl)).1,
    (translateSubtitle_preserves_count_order_timing exMd5 exSrtFail exModelHi 0 [] exContent1
      (str ("en")) (str ("el")) [[str ("Hi")]] (by decide) (by decide) (by rfl)).2.2.1⟩

/-! ## C6 — output format -/

/-- Every encoded document starts with the `WEBVTT` banner. -/
theorem convertCuesToVTT_banner (cues : List Cue) :
    str ("WEBVTT") <+: convertCuesToVTT cues := by
  have h : str ("WEBVTT\n\n") = str ("WEBVTT") ++ ('\n' :: '\n' :: []) := by decide
  unfold convertCuesToVTT
  rw [h, List.append_assoc]
  exact List.prefix_append _ _

/-- C6 counterexample: an input detected as SRT (no `WEBVTT` banner) is
re-serialized by `convertCuesToVTT` — the output starts with the `WEBVTT`
banner, i.e. it is VTT, not SRT.  The claim "an SRT-format input produces
SRT-format output" is false on the code. -/
theorem translateSubtitle_srt_input_yields_vtt_output :
    detectFormat exSrtContent = str ("srt") ∧
      (str ("WEBVTT")).isPrefixOf exSrtContent = false ∧
      (translateSubtitle exMd5 exSrtParse exModelHi 0 [] exSrtContent (str ("en"))
          (str ("el"))).output =
        str ("WEBVTT\n\n1\n00:00:01,000 --> 00:00:02,000\nHi\n\n") ∧
      (str ("WEBVTT")).isPrefixOf
        (translateSubtitle exMd5 exSrtParse exModelHi 0 [] exSrtContent (str ("en"))
          (str ("el"))).output = true := by
  decide

/-- C6 amended: on the translated path the output is always serialized in
VTT form (it starts with the `WEBVTT` banner), regardless of the detected
input format — the code always encodes with `convertCuesToVTT`. -/
theorem translateSubtitle_output_always_vtt (md5hex : Str → Str)
    (srtParse : Str → Except Unit (List Cue)) (model : Nat → Str → Except Unit Str)
    (now : Nat) (cache : Cache) (content sourceLang targetLang : Str)
    (tb : List (List Str))
    (hmiss : (cacheGet now cache (cacheKeyOf md5hex content sourceLang targetLang)).getD [] = [])
    (hcues : parseSubtitleContent srtParse content (detectFormat content) ≠ [])
    (hok : runBatches model sourceLang targetLang 0
        (makeBatches (parseSubtitleContent srtParse content (detectFormat content))) =
        Except.ok tb) :
    str ("WEBVTT") <+:
      (translateSubtitle md5hex srtParse model now cache content sourceLang targetLang).output := by
  rw [translateSubtitle_miss_ok md5hex srtParse model now cache content sourceLang targetLang
    tb hmiss hcues hok]
  exact convertCuesToVTT_banner _

/-- C6 amended witness: the SRT-detected document of the counterexample
instantiates the amended theorem. -/
theorem translateSubtitle_output_always_vtt_witness :
    ((cacheGet 0 [] (cacheKeyOf exMd5 exSrtContent (str ("en")) (str ("el")))).getD [] = [] ∧
      parseSubtitleContent exSrtParse exSrtContent (detectFormat exSrtContent) ≠ []) ∧
    str ("WEBVTT") <+:
      (translateSubtitle exMd5 exSrtParse exModelHi 0 [] exSrtContent (str ("en"))
        (str ("el"))).output :=
  ⟨⟨by decide, by decide⟩,
    translateSubtitle_output_always_vtt exMd5 exSrtParse exModelHi 0 [] exSrtContent
      (str ("en")) (str ("el")) [[str ("Hi")]] (by decide) (by decide) (by rfl)⟩

/-! ## C3 — a hard batch failure is not batch-local -/

/-- If the model call for any single batch rejects, the whole
`Promise.all` rejects. -/
theorem runBatches_error_of_fail (model : Nat → Str → Except Unit Str)
    (sourceLang targetLang : Str) (bs : List (List Cue)) :
    ∀ (i j : Nat) (hj : j < bs.length),
      model (i + j)
        (buildPrompt sourceLang targetLang ((bs.get ⟨j, hj⟩).map (fun c => c.text))) =
        Except.error () →
      runBatches model sourceLang targetLang i bs = Except.error () := by
  induction bs with
  | nil => intro i j hj; exact absurd hj (by simp)
  | cons b rest ih =>
    intro i j hj hfail
    cases j with
    | zero =>
      rw [Nat.add_zero] at hfail
      simp only [List.get] at hfail
      simp only [runBatches, hfail]
    | succ j =>
      have hj2 : j < rest.length := by simpa using hj
      simp only [List.get] at hfail
      have hadd : i + (j + 1) = (i + 1) + j := by omega
      rw [hadd] at hfail
      have htail := ih (i + 1) j hj2 hfail
      simp only [runBatches, htail]
      cases hm : model i (buildPrompt sourceLang targetLang (b.map fun c => c.text)) <;> simp

set_option maxRecDepth 4000 in
/-- C3 counterexample: with two batches, batch 0 failing hard and batch 1
succeeding, the code returns the ORIGINAL document (top-level catch), not
the claimed batch-local blend with batch 1 translated; nothing is
cached. -/
theorem translateSubtitle_hard_failure_not_batch_local :
    (translateSubtitle exMd5 exSrtFail exModelC3 0 [] exContent11 (str ("en"))
        (str ("el"))).output = exContent11 ∧
      (translateSubtitle exMd5 exSrtFail exModelC3 0 [] exContent11 (str ("en"))
          (str ("el"))).output ≠ exExpectedC3 ∧
      (translateSubtitle exMd5 exSrtFail exModelC3 0 [] exContent11 (str ("en"))
          (str ("el"))).cache = [] := by
  decide

/-- C3 amended: if the external model call for one batch fails hard, the
rejection of that batch rejects the whole `Promise.all`, so
`translateSubtitle` returns the original input content verbatim and
writes nothing to the cache (one request per batch was still issued);
batch-local retention of original text happens only for segment-count
mismatches, never for hard failures. -/
theorem translateSubtitle_batch_hard_failure_whole_document_fallback (md5hex : Str → Str)
    (srtParse : Str → Except Unit (List Cue)) (model : Nat → Str → Except Unit Str)
    (now : Nat) (cache : Cache) (content sourceLang targetLang : Str) (j : Nat)
    (hmiss : (cacheGet now cache (cacheKeyOf md5hex content sourceLang targetLang)).getD [] = [])
    (hcues : parseSubtitleContent srtParse content (detectFormat content) ≠ [])
    (hj : j < (makeBatches (parseSubtitleContent srtParse content (detectFormat content))).length)
    (hfail : model j (buildPrompt sourceLang targetLang
        (((makeBatches (parseSubtitleContent srtParse content (detectFormat content))).get
          ⟨j, hj⟩).map (fun c => c.text))) = Except.error ()) :
    translateSubtitle md5hex srtParse model now cache content sourceLang targetLang =
      ⟨content, cache,
        (makeBatches (parseSubtitleContent srtParse content (detectFormat content))).length⟩ := by
  have herr := runBatches_error_of_fail model sourceLang targetLang
    (makeBatches (parseSubtitleContent srtParse content (detectFormat content))) 0 j
    (by simpa using hj) (by simpa using hfail)
  exact translateSubtitle_miss_error md5hex srtParse model now cache content sourceLang
    targetLang hmiss hcues herr

/-- C3 amended witness: the eleven-cue fixture with batch 0 failing. -/
theorem translateSubtitle_batch_hard_failure_whole_document_fallback_witness :
    ((cacheGet 0 [] (cacheKeyOf exMd5 exContent11 (str ("en")) (str ("el")))).getD [] = [] ∧
      parseSubtitleContent exSrtFail exContent11 (detectFormat exContent11) ≠ []) ∧
    translateSubtitle exMd5 exSrtFail exModelC3 0 [] exContent11 (str ("en")) (str ("el")) =
      ⟨exContent11, [],
        (makeBatches (parseSubtitleContent exSrtFail exContent11
          (detectFormat exContent11))).length⟩ :=
  ⟨⟨by decide, by decide⟩,
    translateSubtitle_batch_hard_failure_whole_document_fallback exMd5 exSrtFail
      exModelC3 0 [] exContent11 (str ("en")) (str ("el")) 0 (by decide) (by decide)
      (by decide) (by rfl)⟩

/-! ## Cache lemmas -/

/-- Looking up a key right after `set`: visible before the 24-hour expiry,
gone after it. -/
theorem cacheGet_cacheSet_same (now now2 : Nat) (cache : Cache) (key v : Str) :
    cacheGet now2 (cacheSet now cache key v) key =
      if now2 < now + 86400 then some v else none := by
  unfold cacheGet cacheSet
  rw [List.find?_cons_of_pos _ (by simp)]

/-- The encoded document is never the empty string (it starts with the
banner), so the JS truthiness test on a cached value accepts it. -/
theorem convertCuesToVTT_isEmpty_false (cues : List Cue) :
    (convertCuesToVTT cues).isEmpty = false := by
  have h : str ("WEBVTT\n\n") = 'W' :: str ("EBVTT\n\n") := by decide
  simp [convertCuesToVTT, h]

/-- A truthy cached value short-circuits `translateSubtitle`: the cached
document is returned, the cache is unchanged, no model request is
issued. -/
theorem translateSubtitle_hit (md5hex : Str → Str)
    (srtParse : Str → Except Unit (List Cue)) (model : Nat → Str → Except Unit Str)
    (now : Nat) (cache : Cache) (content sourceLang targetLang : Str) (v : Str)
    (hhit : cacheGet now cache (cacheKeyOf md5hex content sourceLang targetLang) = some v)
    (hne : v.isEmpty = false) :
    translateSubtitle md5hex srtParse model now cache content sourceLang targetLang =
      ⟨v, cache, 0⟩ := by
  simp only [translateSubtitle, hhit, Option.getD_some, hne, Bool.false_eq_true, if_false]

/-! ## C7 — a second identical call is served from the cache -/

/-- C7: after a first call that completes the translation and writes the
cache, a second call with identical `(content, sourceLang, targetLang)`
within the TTL returns the cached document from the lookup step, issues
zero model requests, and leaves the cache as the first call left it — so
the model was only invoked by the first call. -/
theorem translateSubtitle_second_call_served_from_cache (md5hex : Str → Str)
    (srtParse : Str → Except Unit (List Cue)) (model : Nat → Str → Except Unit Str)
    (now now2 : Nat) (cache : Cache) (content sourceLang targetLang : Str)
    (tb : List (List Str))
    (hmiss : (cacheGet now cache (cacheKeyOf md5hex content sourceLang targetLang)).getD [] = [])
    (hcues : parseSubtitleContent srtParse content (detectFormat content) ≠ [])
    (hok : runBatches model sourceLang targetLang 0
        (makeBatches (parseSubtitleContent srtParse content (detectFormat content))) =
        Except.ok tb)
    (hlt : now2 < now + 86400) :
    translateSubtitle md5hex srtParse model now2
        (translateSubtitle md5hex srtParse model now cache content sourceLang targetLang).cache
        content sourceLang targetLang =
      ⟨(translateSubtitle md5hex srtParse model now cache content sourceLang targetLang).output,
        (translateSubtitle md5hex srtParse model now cache content sourceLang targetLang).cache,
        0⟩ := by
  rw [translateSubtitle_miss_ok md5hex srtParse model now cache content sourceLang targetLang
    tb hmiss hcues hok]
  exact translateSubtitle_hit md5hex srtParse model now2 _ content sourceLang targetLang _
    (by rw [cacheGet_cacheSet_same, if_pos hlt]) (convertCuesToVTT_isEmpty_false _)

/-- C7 witness: the one-cue document, first call at instant 0, second
call at instant 100. -/
theorem translateSubtitle_second_call_served_from_cache_witness :
    ((cacheGet 0 [] (cacheKeyOf exMd5 exContent1 (str ("en")) (str ("el")))).getD [] = [] ∧
      parseSubtitleContent exSrtFail exContent1 (detectFormat exContent1) ≠ [] ∧
      (100 : Nat) < 0 + 86400) ∧
    translateSubtitle exMd5 exSrtFail exModelHi 100
        (translateSubtitle exMd5 exSrtFail exModelHi 0 [] exContent1 (str ("en"))
          (str ("el"))).cache exContent1 (str ("en")) (str ("el")) =
      ⟨(translateSubtitle exMd5 exSrtFail exModelHi 0 [] exContent1 (str ("en"))
          (str ("el"))).output,
        (translateSubtitle exMd5 exSrtFail exModelHi 0 [] exContent1 (str ("en"))
          (str ("el"))).cache, 0⟩ :=
  ⟨⟨by decide, by decide, by decide⟩,
    translateSubtitle_second_call_served_from_cache exMd5 exSrtFail exModelHi 0 100 []
      exContent1 (str ("en")) (str ("el")) [[str ("Hi")]] (by decide) (by decide) (by rfl)
      (by decide)⟩

/-! ## C10 — the all-batches-fallback result still poisons the cache -/

/-- Under `mismatchFallback` the batch keeps its original texts. -/
theorem processBatch_of_mismatchFallback (batch : List Cue) (resp : Str)
    (h : mismatchFallback batch resp) :
    processBatch batch resp = batch.map (fun c => c.text) := by
  obtain ⟨h1, h2⟩ := h
  simp only [processBatch, if_pos h1, if_neg (Nat.not_le_of_lt h2)]

/-- When every batch's response triggers the original-texts fallback, the
whole `Promise.all` fulfills with every batch's original texts. -/
theorem runBatches_all_fallback (model : Nat → Str → Except Unit Str)
    (sourceLang targetLang : Str) :
    ∀ (bs : List (List Cue)) (i : Nat),
      (∀ j : Nat, j < bs.length → ∃ resp,
        model (i + j)
            (buildPrompt sourceLang targetLang ((bs.getD j []).map (fun c => c.text))) =
          Except.ok resp ∧ mismatchFallback (bs.getD j []) resp) →
      runBatches model sourceLang targetLang i bs =
        Except.ok (bs.map (fun b => b.map (fun c => c.text))) := by
  intro bs
  induction bs with
  | nil => intro i _; rfl
  | cons b rest ih =>
    intro i h
    obtain ⟨resp, hok, hmm⟩ := h 0 (by simp)
    rw [Nat.add_zero] at hok
    simp only [List.getD_cons_zero] at hok hmm
    have htail := ih (i + 1) (fun j hj => by
      obtain ⟨resp2, hok2, hmm2⟩ := h (j + 1) (by simpa using hj)
      simp only [List.getD_cons_succ] at hok2 hmm2
      refine ⟨resp2, ?_, hmm2⟩
      have hadd : i + (j + 1) = (i + 1) + j := by omega
      rw [hadd] at hok2
      exact hok2)
    simp only [runBatches, hok, htail, List.map_cons]
    rw [processBatch_of_mismatchFallback b resp hmm]

/-- The fixed-size batches of the source reassemble to the source. -/
theorem makeBatches_flatten : ∀ (l : List Cue), (makeBatches l).flatten = l
  | [] => rfl
  | [_] => rfl
  | [_, _] => rfl
  | [_, _, _] => rfl
  | [_, _, _, _] => rfl
  | [_, _, _, _, _] => rfl
  | [_, _, _, _, _, _] => rfl
  | [_, _, _, _, _, _, _] => rfl
  | [_, _, _, _, _, _, _, _] => rfl
  | [_, _, _, _, _, _, _, _, _] => rfl
  | [_, _, _, _, _, _, _, _, _, _] => rfl
  | c1 :: c2 :: c3 :: c4 :: c5 :: c6 :: c7 :: c8 :: c9 :: c10 :: c11 :: rest => by
    have ih := makeBatches_flatten (c11 :: rest)
    simp only [makeBatches, List.flatten_cons, ih]
    rfl

/-- Feeding the cues' own (trim-fixed) texts back through the reassembly
loop reproduces the cues exactly. -/
theorem applyTranslations_map_text_self :
    ∀ (cues : List Cue), (∀ c ∈ cues, jsTrim c.text = c.text) →
      applyTranslations cues (cues.map (fun c => c.text)) = cues := by
  intro cues
  induction cues with
  | nil => intro _; rfl
  | cons c cs ih =>
    intro h
    simp only [List.map_cons, applyTranslations]
    rw [h c (by simp), ih (fun x hx => h x (by simp [hx]))]

/-- C10: when every batch takes the mismatch fallback, the re-encoded
document (whose cue texts are all the original untranslated texts) is
still written to the cache under the key of `(content, sourceLang,
targetLang)`; a later identical call before the 24-hour TTL expires
returns that untranslated document from the cache with zero model
requests, and after the TTL the entry is no longer observable. -/
theorem translateSubtitle_all_fallback_poisons_cache (md5hex : Str → Str)
    (srtParse : Str → Except Unit (List Cue)) (model : Nat → Str → Except Unit Str)
    (now now2 : Nat) (cache : Cache) (content sourceLang targetLang : Str)
    (hmiss : (cacheGet now cache (cacheKeyOf md5hex content sourceLang targetLang)).getD [] = [])
    (hcues : parseSubtitleContent srtParse content (detectFormat content) ≠ [])
    (htrim : ∀ c ∈ parseSubtitleContent srtParse content (detectFormat content),
      jsTrim c.text = c.text)
    (hfb : ∀ j : Nat,
        j < (makeBatches (parseSubtitleContent srtParse content
          (detectFormat content))).length → ∃ resp,
        model j (buildPrompt sourceLang targetLang
            (((makeBatches (parseSubtitleContent srtParse content
              (detectFormat content))).getD j []).map (fun c => c.text))) = Except.ok resp ∧
        mismatchFallback
          ((makeBatches (parseSubtitleContent srtParse content (detectFormat content))).getD
            j []) resp)
    (hlt : now2 < now + 86400) :
    translateSubtitle md5hex srtParse model now cache content sourceLang targetLang =
        ⟨convertCuesToVTT (parseSubtitleContent srtParse content (detectFormat content)),
          cacheSet now cache (cacheKeyOf md5hex content sourceLang targetLang)
            (convertCuesToVTT (parseSubtitleContent srtParse content (detectFormat content))),
          (makeBatches (parseSubtitleContent srtParse content (detectFormat content))).length⟩ ∧
      translateSubtitle md5hex srtParse model now2
          (cacheSet now cache (cacheKeyOf md5hex content sourceLang targetLang)
            (convertCuesToVTT (parseSubtitleContent srtParse content (detectFormat content))))
          content sourceLang targetLang =
        ⟨convertCuesToVTT (parseSubtitleContent srtParse content (detectFormat content)),
          cacheSet now cache (cacheKeyOf md5hex content sourceLang targetLang)
            (convertCuesToVTT (parseSubtitleContent srtParse content (detectFormat content))),
          0⟩ ∧
      ∀ t : Nat, now + 86400 ≤ t →
        cacheGet t
            (cacheSet now cache (cacheKeyOf md5hex content sourceLang targetLang)
              (convertCuesToVTT (parseSubtitleContent srtParse content (detectFormat content))))
            (cacheKeyOf md5hex content sourceLang targetLang) = none := by
  have hok := runBatches_all_fallback model sourceLang targetLang
    (makeBatches (parseSubtitleContent srtParse content (detectFormat content))) 0
    (fun j hj => by simpa using hfb j hj)
  have htb : ((makeBatches (parseSubtitleContent srtParse content
        (detectFormat content))).map (fun b => b.map (fun c => c.text))).flatten =
      (parseSubtitleContent srtParse content (detectFormat content)).map (fun c => c.text) := by
    rw [← List.map_flatten, makeBatches_flatten]
  have h1 := translateSubtitle_miss_ok md5hex srtParse model now cache content sourceLang
    targetLang _ hmiss hcues hok
  rw [htb, applyTranslations_map_text_self _ htrim] at h1
  refine ⟨h1, ?_, ?_⟩
  · exact translateSubtitle_hit md5hex srtParse model now2 _ content sourceLang targetLang _
      (by rw [cacheGet_cacheSet_same, if_pos hlt]) (convertCuesToVTT_isEmpty_false _)
  · intro t ht
    rw [cacheGet_cacheSet_same, if_neg (by omega)]

/-- C10 witness: the two-cue document whose single batch falls back to
its original texts; first call at instant 5, second at instant 6. -/
theorem translateSubtitle_all_fallback_poisons_cache_witness :
    ((cacheGet 5 [] (cacheKeyOf exMd5 exContent2 (str ("en")) (str ("el")))).getD [] = [] ∧
      parseSubtitleContent exSrtFail exContent2 (detectFormat exContent2) ≠ [] ∧
      (6 : Nat) < 5 + 86400) ∧
    translateSubtitle exMd5 exSrtFail exModelA 5 [] exContent2 (str ("en")) (str ("el")) =
      ⟨convertCuesToVTT (parseSubtitleContent exSrtFail exContent2 (detectFormat exContent2)),
        cacheSet 5 [] (cacheKeyOf exMd5 exContent2 (str ("en")) (str ("el")))
          (convertCuesToVTT (parseSubtitleContent exSrtFail exContent2
            (detectFormat exContent2))),
        (makeBatches (parseSubtitleContent exSrtFail exContent2
          (detectFormat exContent2))).length⟩ ∧
    translateSubtitle exMd5 exSrtFail exModelA 6
        (cacheSet 5 [] (cacheKeyOf exMd5 exContent2 (str ("en")) (str ("el")))
          (convertCuesToVTT (parseSubtitleContent exSrtFail exContent2
            (detectFormat exContent2))))
        exContent2 (str ("en")) (str ("el")) =
      ⟨convertCuesToVTT (parseSubtitleContent exSrtFail exContent2 (detectFormat exContent2)),
        cacheSet 5 [] (cacheKeyOf exMd5 exContent2 (str ("en")) (str ("el")))
          (convertCuesToVTT (parseSubtitleContent exSrtFail exContent2
            (detectFormat exContent2))),
        0⟩ := by
  have h := translateSubtitle_all_fallback_poisons_cache exMd5 exSrtFail exModelA 5 6 []
    exContent2 (str ("en")) (str ("el")) (by decide) (by decide) (by decide)
    (fun j hj => by
      have hlen : (makeBatches (parseSubtitleContent exSrtFail exContent2
          (detectFormat exContent2))).length = 1 := by decide
      rw [hlen] at hj
      have hj0 : j = 0 := by omega
      subst hj0
      exact ⟨str ("a"), by rfl, by decide, by decide⟩)
    (by decide)
  exact ⟨⟨by decide, by decide, by decide⟩, h.1, h.2.1⟩

/-! ## C2 — round-trip: validity predicates and split lemmas -/

/-- `jsSplitNl` never returns the empty list. -/
theorem jsSplitNl_ne_nil (s : Str) : jsSplitNl s ≠ [] := by
  cases s with
  | nil => simp [jsSplitNl]
  | cons c cs =>
    by_cases h : c = '\n'
    · simp [jsSplitNl, h]
    · simp only [jsSplitNl, if_neg h]
      cases jsSplitNl cs <;> simp

/-- Splitting on a newline boundary splits the two sides independently. -/
theorem jsSplitNl_append_cons (a b : Str) :
    jsSplitNl (a ++ '\n' :: b) = jsSplitNl a ++ jsSplitNl b := by
  induction a with
  | nil => simp [jsSplitNl]
  | cons c cs ih =>
    by_cases h : c = '\n'
    · simp only [List.cons_append, jsSplitNl, if_pos h, ih, List.append_eq]
    · cases hcs : jsSplitNl cs with
      | nil => exact absurd hcs (jsSplitNl_ne_nil cs)
      | cons l ls =>
        simp only [List.cons_append, jsSplitNl, if_neg h, List.append_eq, ih, hcs]

/-- A newline-free string splits into itself. -/
theorem jsSplitNl_of_no_nl (a : Str) (h : '\n' ∉ a) : jsSplitNl a = [a] := by
  induction a with
  | nil => rfl
  | cons c cs ih =>
    have hc : ¬(c = '\n') := fun hh => h (hh ▸ List.mem_cons_self c cs)
    have hcs : '\n' ∉ cs := fun hh => h (List.mem_cons_of_mem c hh)
    simp only [jsSplitNl, if_neg hc, ih hcs]

/-- The split lines reassemble to the original string: the head line plus
each tail line with its newline restored. -/
theorem jsSplitNl_head_tails :
    ∀ (t l : Str) (ls : List Str), jsSplitNl t = l :: ls →
      l ++ (ls.map (fun x => '\n' :: x)).flatten = t := by
  intro t
  induction t with
  | nil =>
    intro l ls h
    simp only [jsSplitNl] at h
    cases h
    rfl
  | cons c cs ih =>
    intro l ls h
    by_cases hc : c = '\n'
    · subst hc
      simp only [jsSplitNl, if_pos rfl] at h
      injection h with h1 h2
      subst h1
      subst h2
      cases hcs : jsSplitNl cs with
      | nil => exact absurd hcs (jsSplitNl_ne_nil cs)
      | cons m ms =>
        have hm := ih m ms hcs
        simp [hcs, List.flatten_cons, hm]
    · simp only [jsSplitNl, if_neg hc] at h
      cases hcs : jsSplitNl cs with
      | nil => exact absurd hcs (jsSplitNl_ne_nil cs)
      | cons m ms =>
        rw [hcs] at h
        injection h with h1 h2
        subst h1
        subst h2
        have hm := ih m ms hcs
        simp only [List.cons_append, hm]

/-! ## Digit and index-line lemmas -/

/-- A decimal digit is not one of the whitespace characters. -/
theorem digit_not_ws (c : Char) (h : c.isDigit = true) : isWsChar c = false := by
  cases hw : isWsChar c
  · rfl
  · exfalso
    unfold isWsChar at hw
    simp only [Bool.or_eq_true, decide_eq_true_eq] at hw
    have hcases : c = ' ' ∨ c = '\t' ∨ c = '\n' ∨ c = '\r' ∨ c = '\x0b' ∨ c = '\x0c' := by
      tauto
    rcases hcases with h1 | h1 | h1 | h1 | h1 | h1 <;> rw [h1] at h <;>
      exact absurd h (by decide)

/-- Two characters of different digit-ness are unequal under `==`. -/
theorem digit_beq_false (c d : Char) (h1 : c.isDigit = true) (h2 : d.isDigit = false) :
    (c == d) = false := by
  cases hb : c == d
  · rfl
  · exact absurd (eq_of_beq hb ▸ h1) (by simp [h2])

/-- A string of non-whitespace characters is `trim`-invariant. -/
theorem jsTrim_eq_self_of_no_ws (l : Str) (h : ∀ c ∈ l, isWsChar c = false) :
    jsTrim l = l := by
  have hdrop : ∀ (m : Str), (∀ c ∈ m, isWsChar c = false) → m.dropWhile isWsChar = m := by
    intro m hm
    cases m with
    | nil => rfl
    | cons c cs => rw [List.dropWhile_cons, hm c (by simp)]; simp
  unfold jsTrim
  rw [hdrop l h, hdrop l.reverse (fun c hc => h c (List.mem_reverse.mp hc)),
    List.reverse_reverse]

/-- The digit characters produced by `Nat.digitChar` below ten. -/
theorem digitChar_isDigit : ∀ n : Nat, n < 10 → (Nat.digitChar n).isDigit = true := by
  decide

/-- With enough fuel the decimal expansion is non-empty and consists of
digits only. -/
theorem natToCharsCore_digits :
    ∀ (fuel n : Nat), n < fuel →
      natToCharsCore fuel n ≠ [] ∧ ∀ c ∈ natToCharsCore fuel n, c.isDigit = true := by
  intro fuel
  induction fuel with
  | zero => intro n h; exact absurd h (by omega)
  | succ fuel ih =>
    intro n h
    by_cases h10 : n < 10
    · refine ⟨by simp [natToCharsCore, if_pos h10], ?_⟩
      intro c hc
      simp only [natToCharsCore, if_pos h10, List.mem_singleton] at hc
      subst hc
      exact digitChar_isDigit n h10
    · have hd : n / 10 < fuel := by omega
      obtain ⟨hne, hall⟩ := ih (n / 10) hd
      refine ⟨?_, ?_⟩
      · simp only [natToCharsCore, if_neg h10]
        simp [hne]
      · intro c hc
        simp only [natToCharsCore, if_neg h10, List.mem_append, List.mem_singleton] at hc
        rcases hc with hc | hc
        · exact hall c hc
        · subst hc
          exact digitChar_isDigit _ (Nat.mod_lt _ (by omega))

/-- The rendered cue index is a non-empty all-digit string. -/
theorem natToChars_digits (n : Nat) :
    natToChars n ≠ [] ∧ ∀ c ∈ natToChars n, c.isDigit = true :=
  natToCharsCore_digits (n + 1) n (by omega)

/-- The long-form matcher fails on an all-digit string. -/
theorem matchLong_none_of_digits (s : Str) (h : ∀ c ∈ s, c.isDigit = true) :
    matchLong s = none := by
  rcases s with _ | ⟨a, _ | ⟨b, _ | ⟨c, rest⟩⟩⟩
  · rfl
  · rfl
  · rfl
  · have hc : (c == ':') = false := digit_beq_false c ':' (h c (by simp)) (by decide)
    rcases rest with _ | ⟨d, _ | ⟨e, _ | ⟨f, _ | ⟨g, _ | ⟨h1, _ | ⟨i, _ | ⟨j, _ | ⟨k, _ |
      ⟨l, rest⟩⟩⟩⟩⟩⟩⟩⟩⟩ <;> simp [matchLong, hc]

/-- The short-form matcher fails on an all-digit string. -/
theorem matchShort_none_of_digits (s : Str) (h : ∀ c ∈ s, c.isDigit = true) :
    matchShort s = none := by
  rcases s with _ | ⟨a, _ | ⟨b, _ | ⟨c, rest⟩⟩⟩
  · rfl
  · rfl
  · rfl
  · have hc : (c == ':') = false := digit_beq_false c ':' (h c (by simp)) (by decide)
    rcases rest with _ | ⟨d, _ | ⟨e, _ | ⟨f, _ | ⟨g, _ | ⟨h1, _ | ⟨i, rest⟩⟩⟩⟩⟩⟩ <;>
      simp [matchShort, hc]

/-- The timing regex never matches inside an all-digit line. -/
theorem findTiming_none_of_digits (s : Str) (h : ∀ c ∈ s, c.isDigit = true) :
    findTiming s = none := by
  induction s with
  | nil => rfl
  | cons c cs ih =>
    have hL := matchLong_none_of_digits (c :: cs) h
    have hS := matchShort_none_of_digits (c :: cs) h
    simp only [findTiming, matchPatAt, hL, hS]
    exact ih (fun x hx => h x (List.mem_cons_of_mem c hx))

/-! ## Timestamp matcher lemmas -/

/-- Successful long-form matches expose twelve explicit characters, the
guard that validated them, and the exact split of the input. -/
theorem matchLong_some_elim (s t r : Str) (h : matchLong s = some (t, r)) :
    ∃ (q1 q2 q3 q4 q5 q6 q7 q8 q9 q10 q11 q12 : Char),
      s = q1 :: q2 :: q3 :: q4 :: q5 :: q6 :: q7 :: q8 :: q9 :: q10 :: q11 :: q12 :: r ∧
        t = [q1, q2, q3, q4, q5, q6, q7, q8, q9, q10, q11, q12] ∧
        (q1.isDigit && q2.isDigit && q3 == ':' && q4.isDigit && q5.isDigit &&
          q6 == ':' && q7.isDigit && q8.isDigit && q9 == '.' && q10.isDigit &&
          q11.isDigit && q12.isDigit) = true := by
  rcases s with _ | ⟨q1, _ | ⟨q2, _ | ⟨q3, _ | ⟨q4, _ | ⟨q5, _ | ⟨q6, _ | ⟨q7, _ | ⟨q8, _ |
    ⟨q9, _ | ⟨q10, _ | ⟨q11, _ | ⟨q12, rest⟩⟩⟩⟩⟩⟩⟩⟩⟩⟩⟩⟩
  · simp [matchLong] at h
  · simp [matchLong] at h
  · simp [matchLong] at h
  · simp [matchLong] at h
  · simp [matchLong] at h
  · simp [matchLong] at h
  · simp [matchLong] at h
  · simp [matchLong] at h
  · simp [matchLong] at h
  · simp [matchLong] at h
  · simp [matchLong] at h
  · simp [matchLong] at h
  · simp only [matchLong] at h
    split at h
    next hcond =>
      rw [Option.some.injEq, Prod.mk.injEq] at h
      obtain ⟨ht, hr⟩ := h
      subst hr
      exact ⟨q1, q2, q3, q4, q5, q6, q7, q8, q9, q10, q11, q12, rfl, ht.symm, hcond⟩
    next => exact absurd h (by simp)

/-- Successful short-form matches expose nine explicit characters, the
guard, and the exact split. -/
theorem matchShort_some_elim (s t r : Str) (h : matchShort s = some (t, r)) :
    ∃ (q1 q2 q3 q4 q5 q6 q7 q8 q9 : Char),
      s = q1 :: q2 :: q3 :: q4 :: q5 :: q6 :: q7 :: q8 :: q9 :: r ∧
        t = [q1, q2, q3, q4, q5, q6, q7, q8, q9] ∧
        (q1.isDigit && q2.isDigit && q3 == ':' && q4.isDigit && q5.isDigit &&
          q6 == '.' && q7.isDigit && q8.isDigit && q9.isDigit) = true := by
  rcases s with _ | ⟨q1, _ | ⟨q2, _ | ⟨q3, _ | ⟨q4, _ | ⟨q5, _ | ⟨q6, _ | ⟨q7, _ | ⟨q8, _ |
    ⟨q9, rest⟩⟩⟩⟩⟩⟩⟩⟩⟩
  · simp [matchShort] at h
  · simp [matchShort] at h
  · simp [matchShort] at h
  · simp [matchShort] at h
  · simp [matchShort] at h
  · simp [matchShort] at h
  · simp [matchShort] at h
  · simp [matchShort] at h
  · simp [matchShort] at h
  · simp only [matchShort] at h
    split at h
    next hcond =>
      rw [Option.some.injEq, Prod.mk.injEq] at h
      obtain ⟨ht, hr⟩ := h
      subst hr
      exact ⟨q1, q2, q3, q4, q5, q6, q7, q8, q9, rfl, ht.symm, hcond⟩
    next => exact absurd h (by simp)

/-- An exact long-form timestamp still matches (consuming exactly itself)
when followed by arbitrary input. -/
theorem matchLong_exact_append (s r : Str) (h : matchLong s = some (s, [])) :
    matchLong (s ++ r) = some (s, r) := by
  obtain ⟨q1, q2, q3, q4, q5, q6, q7, q8, q9, q10, q11, q12, hs, ht, hcond⟩ :=
    matchLong_some_elim s s [] h
  rw [hs]
  simp only [List.cons_append, List.nil_append, matchLong]
  rw [if_pos hcond]

/-- An exact short-form timestamp still matches when followed by
arbitrary input. -/
theorem matchShort_exact_append (s r : Str) (h : matchShort s = some (s, [])) :
    matchShort (s ++ r) = some (s, r) := by
  obtain ⟨q1, q2, q3, q4, q5, q6, q7, q8, q9, hs, ht, hcond⟩ :=
    matchShort_some_elim s s [] h
  rw [hs]
  simp only [List.cons_append, List.nil_append, matchShort]
  rw [if_pos hcond]

/-- An exact short-form timestamp can never begin a long-form match, no
matter what follows: its sixth character is `.` where the long form
demands `:`. -/
theorem matchLong_none_of_short (s r : Str) (h : matchShort s = some (s, [])) :
    matchLong (s ++ r) = none := by
  obtain ⟨q1, q2, q3, q4, q5, q6, q7, q8, q9, hs, ht, hcond⟩ :=
    matchShort_some_elim s s [] h
  have hq6 : q6 = '.' := by
    simp only [Bool.and_eq_true, beq_iff_eq] at hcond
    tauto
  subst hq6
  rw [hs]
  rcases r with _ | ⟨r1, _ | ⟨r2, _ | ⟨r3, r4⟩⟩⟩ <;>
    simp [matchLong, List.cons_append, List.nil_append]

/-- `validTs` unpacked into the two regex alternatives. -/
theorem validTs_cases (s : Str) (h : validTs s) :
    matchLong s = some (s, []) ∨ (matchLong s = none ∧ matchShort s = some (s, [])) := by
  unfold validTs matchTs at h
  cases hL : matchLong s with
  | some p =>
    rw [hL] at h
    exact Or.inl h
  | none =>
    rw [hL] at h
    exact Or.inr ⟨rfl, h⟩

/-- The characters of a recognized timestamp are digits, `:` or `.`; all
of them are non-whitespace and in particular not a newline. -/
theorem tsChar_facts (x : Char) (hx : x.isDigit = true ∨ x = ':' ∨ x = '.') :
    isWsChar x = false ∧ x ≠ '\n' := by
  rcases hx with hd | rfl | rfl
  · exact ⟨digit_not_ws x hd, fun heq => absurd (heq ▸ hd) (by decide)⟩
  · exact ⟨by decide, by decide⟩
  · exact ⟨by decide, by decide⟩

/-- Shape of a recognized timestamp: it starts and ends with a digit and
contains no whitespace (in particular no newline). -/
theorem validTs_shape (s : Str) (h : validTs s) :
    ∃ (a : Char) (mid : Str) (d : Char),
      s = a :: (mid ++ [d]) ∧ a.isDigit = true ∧ d.isDigit = true ∧
        ∀ x ∈ s, isWsChar x = false ∧ x ≠ '\n' := by
  rcases validTs_cases s h with hL | ⟨_, hS⟩
  · obtain ⟨q1, q2, q3, q4, q5, q6, q7, q8, q9, q10, q11, q12, hs, _, hcond⟩ :=
      matchLong_some_elim s s [] hL
    simp only [Bool.and_eq_true, beq_iff_eq] at hcond
    have h1 : q1.isDigit = true := by tauto
    have h3 : q3 = ':' := by tauto
    have h6 : q6 = ':' := by tauto
    have h9 : q9 = '.' := by tauto
    have h12 : q12.isDigit = true := by tauto
    refine ⟨q1, [q2, q3, q4, q5, q6, q7, q8, q9, q10, q11], q12, by simp [hs], h1, h12, ?_⟩
    intro x hx
    rw [hs] at hx
    simp only [List.mem_cons, List.not_mem_nil, or_false] at hx
    rcases hx with rfl | rfl | rfl | rfl | rfl | rfl | rfl | rfl | rfl | rfl | rfl | rfl <;>
      exact tsChar_facts _ (by tauto)
  · obtain ⟨q1, q2, q3, q4, q5, q6, q7, q8, q9, hs, _, hcond⟩ :=
      matchShort_some_elim s s [] hS
    simp only [Bool.and_eq_true, beq_iff_eq] at hcond
    have h1 : q1.isDigit = true := by tauto
    have h3 : q3 = ':' := by tauto
    have h6 : q6 = '.' := by tauto
    have h9 : q9.isDigit = true := by tauto
    refine ⟨q1, [q2, q3, q4, q5, q6, q7, q8], q9, by simp [hs], h1, h9, ?_⟩
    intro x hx
    rw [hs] at hx
    simp only [List.mem_cons, List.not_mem_nil, or_false] at hx
    rcases hx with rfl | rfl | rfl | rfl | rfl | rfl | rfl | rfl | rfl <;>
      exact tsChar_facts _ (by tauto)

/-! ## Line classification lemmas -/

/-- A string whose first and last characters are non-whitespace is
`trim`-invariant. -/
theorem jsTrim_eq_self_of_ends (l : Str)
    (hhead : ∃ (a : Char) (t : Str), l = a :: t ∧ isWsChar a = false)
    (hlast : ∃ (m : Str) (d : Char), l = m ++ [d] ∧ isWsChar d = false) :
    jsTrim l = l := by
  obtain ⟨a, t, h1, ha⟩ := hhead
  obtain ⟨m, d, h2, hd⟩ := hlast
  unfold jsTrim
  rw [h1, List.dropWhile_cons, ha]
  simp only [Bool.false_eq_true, if_false]
  rw [← h1, h2, List.reverse_append, List.reverse_singleton, List.singleton_append,
    List.dropWhile_cons, hd]
  simp only [Bool.false_eq_true, if_false]
  have hdm : d :: m.reverse = (m ++ [d]).reverse := by
    rw [List.reverse_append, List.reverse_singleton, List.singleton_append]
  rw [hdm, List.reverse_reverse, ← h2, h1]

/-- A line starting with a digit is neither the banner nor an annotation
opener. -/
theorem digit_head_line_facts (a : Char) (t : Str) (ha : a.isDigit = true) :
    ((a :: t : Str) == str ("WEBVTT")) = false ∧
      (str ("NOTE")).isPrefixOf (a :: t) = false := by
  constructor
  · rw [beq_eq_false_iff_ne]
    intro heq
    have hw : str ("WEBVTT") = 'W' :: str ("EBVTT") := by decide
    rw [hw] at heq
    injection heq with hA _
    rw [hA] at ha
    exact absurd ha (by decide)
  · have hn : str ("NOTE") = 'N' :: str ("OTE") := by decide
    have hNa : ('N' == a) = false := by
      apply beq_false_of_ne
      intro heq
      rw [← heq] at ha
      exact absurd ha (by decide)
    rw [hn]
    simp [List.isPrefixOf, hNa]

/-- The timing line built by the encoder from two exact timestamps is
matched by the timing regex at position zero, capturing exactly the two
timestamps. -/
theorem findTiming_timing_line (s e : Str) (hs : validTs s) (he : validTs e) :
    findTiming (s ++ str (" --> ") ++ e) = some (s, e) := by
  have harr : str (" --> ") = ' ' :: '-' :: '-' :: '>' :: ' ' :: [] := by decide
  have harrow : matchArrow (str (" --> ") ++ e) = some e := by
    rw [harr]
    simp [matchArrow]
  have hts2 : matchTs e = some (e, []) := he
  have hmatch : matchPatAt (s ++ (str (" --> ") ++ e)) = some (s, e) := by
    rcases validTs_cases s hs with hL | ⟨hLn, hS⟩
    · simp only [matchPatAt, matchLong_exact_append s _ hL, harrow, hts2]
    · simp only [matchPatAt, matchLong_none_of_short s _ hS,
        matchShort_exact_append s _ hS, harrow, hts2]
  obtain ⟨a, mid, d, hseq, _, _, _⟩ := validTs_shape s hs
  rw [List.append_assoc]
  have hcons : s ++ (str (" --> ") ++ e) =
      a :: ((mid ++ [d]) ++ (str (" --> ") ++ e)) := by
    rw [hseq, List.cons_append]
  rw [hcons]
  simp only [findTiming]
  rw [← hcons, hmatch]

/-! ## Parser step lemmas -/

/-- A rendered cue-index line is skipped by the parser whatever its
state. -/
theorem parseVTTLines_index_step (n : Nat) (rest : List Str) (cur : Option Cue)
    (acc : List Cue) :
    parseVTTLines (natToChars n :: rest) false cur acc =
      parseVTTLines rest false cur acc := by
  obtain ⟨hne, hdig⟩ := natToChars_digits n
  have htrim : jsTrim (natToChars n) = natToChars n :=
    jsTrim_eq_self_of_no_ws _ (fun c hc => digit_not_ws c (hdig c hc))
  obtain ⟨a, t, hat⟩ : ∃ (a : Char) (t : Str), natToChars n = a :: t := by
    cases h : natToChars n with
    | nil => exact absurd h hne
    | cons a t => exact ⟨a, t, rfl⟩
  have hadig : a.isDigit = true := hdig a (by rw [hat]; simp)
  have hfacts := digit_head_line_facts a t hadig
  have hempty : (natToChars n).isEmpty = false := by rw [hat]; rfl
  have hwe : ((natToChars n) == str ("WEBVTT")) = false := by rw [hat]; exact hfacts.1
  have hnote : (str ("NOTE")).isPrefixOf (natToChars n) = false := by
    rw [hat]; exact hfacts.2
  have hft : findTiming (natToChars n) = none := findTiming_none_of_digits _ hdig
  have hidx : isIndexLine (natToChars n) = true := by
    unfold isIndexLine
    rw [List.all_eq_true]
    intro c hc
    exact hdig c hc
  cases cur with
  | none =>
    simp only [parseVTTLines, htrim, hempty, hwe, Bool.or_false, Bool.false_eq_true,
      if_false, hnote, hft]
  | some c =>
    simp only [parseVTTLines, htrim, hempty, hwe, Bool.or_false, Bool.false_eq_true,
      if_false, hnote, hft, hidx, if_true]

/-- The encoder's timing line pushes any pending cue and opens a new cue
with the two captured timestamps and empty text. -/
theorem parseVTTLines_timing_step (s e : Str) (hs : validTs s) (he : validTs e)
    (rest : List Str) (cur : Option Cue) (acc : List Cue) :
    parseVTTLines ((s ++ str (" --> ") ++ e) :: rest) false cur acc =
      parseVTTLines rest false (some ⟨s, e, []⟩) (acc ++ cur.toList) := by
  obtain ⟨a, mid, d, hseq, hadig, _, _⟩ := validTs_shape s hs
  obtain ⟨ae, mide, de, heeq, _, hdedig, _⟩ := validTs_shape e he
  have hconsL : s ++ str (" --> ") ++ e =
      a :: ((mid ++ [d]) ++ (str (" --> ") ++ e)) := by
    rw [List.append_assoc, hseq, List.cons_append]
  have htrim : jsTrim (s ++ str (" --> ") ++ e) = s ++ str (" --> ") ++ e := by
    apply jsTrim_eq_self_of_ends
    · exact ⟨a, (mid ++ [d]) ++ (str (" --> ") ++ e), hconsL, digit_not_ws a hadig⟩
    · refine ⟨s ++ str (" --> ") ++ (ae :: mide), de, ?_, digit_not_ws de hdedig⟩
      rw [heeq]
      simp
  have hfacts := digit_head_line_facts a ((mid ++ [d]) ++ (str (" --> ") ++ e)) hadig
  have hempty : (s ++ str (" --> ") ++ e).isEmpty = false := by rw [hconsL]; rfl
  have hwe : ((s ++ str (" --> ") ++ e) == str ("WEBVTT")) = false := by
    rw [hconsL]; exact hfacts.1
  have hnote : (str ("NOTE")).isPrefixOf (s ++ str (" --> ") ++ e) = false := by
    rw [hconsL]; exact hfacts.2
  have hft := findTiming_timing_line s e hs he
  simp only [parseVTTLines, htrim, hempty, hwe, Bool.or_false, Bool.false_eq_true,
    if_false, hnote, hft]

/-- A benign text line is appended to the current cue's text (with a
newline separator unless the text is still empty). -/
theorem parseVTTLines_text_step (l : Str) (h : textLineOk l) (s e t : Str)
    (rest : List Str) (acc : List Cue) :
    parseVTTLines (l :: rest) false (some ⟨s, e, t⟩) acc =
      parseVTTLines rest false
        (some ⟨s, e, t ++ (if t.isEmpty then [] else ['\n']) ++ l⟩) acc := by
  obtain ⟨htrim, hne, hwe, hnote, hft, hidx⟩ := h
  have hempty : l.isEmpty = false := by
    cases l with
    | nil => exact absurd rfl hne
    | cons c cs => rfl
  have hweb : (l == str ("WEBVTT")) = false := beq_eq_false_iff_ne.mpr hwe
  simp only [parseVTTLines, htrim, hempty, hweb, Bool.or_false, Bool.false_eq_true,
    if_false, hnote, hft, hidx]

/-- Processing a run of benign text lines accumulates them onto the
current cue's (non-empty) text, newline-separated. -/
theorem parseVTTLines_text_accum :
    ∀ (tls : List Str), (∀ l ∈ tls, textLineOk l) →
      ∀ (s e t : Str), t ≠ [] → ∀ (rest : List Str) (acc : List Cue),
        parseVTTLines (tls ++ rest) false (some ⟨s, e, t⟩) acc =
          parseVTTLines rest false
            (some ⟨s, e, t ++ (tls.map (fun x => '\n' :: x)).flatten⟩) acc := by
  intro tls
  induction tls with
  | nil =>
    intro _ s e t _ rest acc
    simp
  | cons l tls ih =>
    intro h s e t ht rest acc
    have hl := h l (by simp)
    have htEmpty : t.isEmpty = false := by
      cases t with
      | nil => exact absurd rfl ht
      | cons c cs => rfl
    rw [List.cons_append, parseVTTLines_text_step l hl]
    have harg : t ++ (if t.isEmpty then [] else ['\n']) ++ l = t ++ '\n' :: l := by
      rw [htEmpty]
      simp
    rw [harg, ih (fun x hx => h x (by simp [hx])) s e (t ++ '\n' :: l) (by simp) rest acc]
    have htxt : (t ++ '\n' :: l) ++ ((tls.map (fun x => '\n' :: x)).flatten) =
        t ++ (((l :: tls).map (fun x => '\n' :: x)).flatten) := by
      simp
    rw [htxt]

/-! ## Assembling the round-trip -/

/-- A blank line is skipped by the parser. -/
theorem parseVTTLines_blank_step (rest : List Str) (cur : Option Cue) (acc : List Cue) :
    parseVTTLines (([] : Str) :: rest) false cur acc = parseVTTLines rest false cur acc := by
  simp [parseVTTLines, jsTrim]

/-- The banner line is skipped by the parser. -/
theorem parseVTTLines_banner_step (rest : List Str) (cur : Option Cue) (acc : List Cue) :
    parseVTTLines (str ("WEBVTT") :: rest) false cur acc =
      parseVTTLines rest false cur acc := by
  have htrim : jsTrim (str ("WEBVTT")) = str ("WEBVTT") := by decide
  have hcond : ((str ("WEBVTT")).isEmpty || (str ("WEBVTT") == str ("WEBVTT"))) = true := by
    decide
  simp only [parseVTTLines, htrim, hcond, if_true]

/-- Splitting the encoder's cue blocks on newlines yields exactly the
block lines: index, timing line, the text's own lines, and a blank. -/
theorem jsSplitNl_vttBlocks :
    ∀ (cues : List Cue), (∀ c ∈ cues, validCue c) → ∀ (i : Nat),
      jsSplitNl (vttBlocks i cues) = encLines i cues := by
  intro cues
  induction cues with
  | nil => intro _ i; rfl
  | cons c rest ih =>
    intro h i
    obtain ⟨hcs, hce, _⟩ := h c (by simp)
    obtain ⟨_, hdig⟩ := natToChars_digits (i + 1)
    have hidxnl : '\n' ∉ natToChars (i + 1) := fun hm =>
      absurd (hdig _ hm) (by decide)
    obtain ⟨_, _, _, _, _, _, hallS⟩ := validTs_shape c.start hcs
    obtain ⟨_, _, _, _, _, _, hallE⟩ := validTs_shape c.endT hce
    have htimnl : '\n' ∉ c.start ++ str (" --> ") ++ c.endT := by
      intro hm
      rcases List.mem_append.mp hm with hm2 | hm2
      · rcases List.mem_append.mp hm2 with hm3 | hm3
        · exact (hallS '\n' hm3).2 rfl
        · exact absurd hm3 (by decide)
      · exact (hallE '\n' hm2).2 rfl
    show jsSplitNl (natToChars (i + 1) ++ '\n' ::
        (c.start ++ str (" --> ") ++ c.endT ++ '\n' ::
          (c.text ++ '\n' :: '\n' :: vttBlocks (i + 1) rest))) = _
    rw [jsSplitNl_append_cons, jsSplitNl_append_cons, jsSplitNl_append_cons,
      jsSplitNl_of_no_nl _ hidxnl, jsSplitNl_of_no_nl _ htimnl]
    have hnl : jsSplitNl ('\n' :: vttBlocks (i + 1) rest) =
        [] :: jsSplitNl (vttBlocks (i + 1) rest) := by
      simp [jsSplitNl]
    rw [hnl, ih (fun x hx => h x (by simp [hx])) (i + 1)]
    simp [encLines]

/-- Running the parser loop over the encoded block lines recovers exactly
the encoded cues, whatever cue was pending and whatever was already
accumulated. -/
theorem parseVTTLines_encLines :
    ∀ (cues : List Cue), (∀ c ∈ cues, validCue c) →
      ∀ (i : Nat) (cur : Option Cue) (acc : List Cue),
        parseVTTLines (encLines i cues) false cur acc = acc ++ cur.toList ++ cues := by
  intro cues
  induction cues with
  | nil =>
    intro _ i cur acc
    show parseVTTLines [[]] false cur acc = acc ++ cur.toList ++ []
    rw [parseVTTLines_blank_step]
    show acc ++ cur.toList = acc ++ cur.toList ++ []
    simp
  | cons c rest ih =>
    intro h i cur acc
    obtain ⟨hcs, hce, htext⟩ := h c (by simp)
    show parseVTTLines (natToChars (i + 1) :: (c.start ++ str (" --> ") ++ c.endT) ::
        (jsSplitNl c.text ++ ([] :: encLines (i + 1) rest))) false cur acc = _
    rw [parseVTTLines_index_step, parseVTTLines_timing_step c.start c.endT hcs hce]
    obtain ⟨l1, tls, hsplit⟩ : ∃ (l1 : Str) (tls : List Str),
        jsSplitNl c.text = l1 :: tls := by
      cases hx : jsSplitNl c.text with
      | nil => exact absurd hx (jsSplitNl_ne_nil _)
      | cons l1 tls => exact ⟨l1, tls, rfl⟩
    have hl1 := htext l1 (by rw [hsplit]; simp)
    have htls : ∀ l ∈ tls, textLineOk l := fun l hl => htext l (by rw [hsplit]; simp [hl])
    rw [hsplit, List.cons_append, parseVTTLines_text_step l1 hl1]
    have hfirst : ([] : Str) ++ (if ([] : Str).isEmpty then [] else ['\n']) ++ l1 = l1 := by
      simp
    rw [hfirst, parseVTTLines_text_accum tls htls c.start c.endT l1 hl1.2.1,
      jsSplitNl_head_tails c.text l1 tls hsplit, parseVTTLines_blank_step,
      ih (fun x hx => h x (by simp [hx])) (i + 1) (some c) (acc ++ cur.toList)]
    simp

/-- C2 amended: the decode-encode round trip is the identity for every
cue sequence whose timestamps are exact matches of one of the two
timestamp syntaxes and whose text lines are benign — trim-invariant,
non-empty, not all digits, not the `WEBVTT` banner, not starting with
`NOTE`, and containing no timing-pattern match.  (The original claim,
quantified over all cues with non-empty text, fails: see the
counterexample with an all-digit text line.) -/
theorem parseSubtitleContent_convertCuesToVTT_roundtrip
    (srtParse : Str → Except Unit (List Cue)) (cues : List Cue)
    (h : ∀ c ∈ cues, validCue c) :
    parseSubtitleContent srtParse (convertCuesToVTT cues) (str ("vtt")) = cues := by
  unfold parseSubtitleContent
  rw [if_neg (by decide)]
  unfold convertCuesToVTT
  have hw : str ("WEBVTT\n\n") ++ vttBlocks 0 cues =
      str ("WEBVTT") ++ '\n' :: ('\n' :: vttBlocks 0 cues) := by
    have hlit : str ("WEBVTT\n\n") = str ("WEBVTT") ++ ['\n', '\n'] := by decide
    rw [hlit]
    simp
  have h1 : jsSplitNl (str ("WEBVTT")) = [str ("WEBVTT")] := by decide
  have h2 : jsSplitNl ('\n' :: vttBlocks 0 cues) = [] :: jsSplitNl (vttBlocks 0 cues) := by
    simp [jsSplitNl]
  rw [hw, jsSplitNl_append_cons, h1, h2, jsSplitNl_vttBlocks cues h 0,
    List.singleton_append, parseVTTLines_banner_step, parseVTTLines_blank_step,
    parseVTTLines_encLines cues h 0 none []]
  rfl

/-- C2 amended witness: a two-cue sequence (multi-line text, both
timestamp syntaxes) round-trips exactly. -/
theorem parseSubtitleContent_convertCuesToVTT_roundtrip_witness :
    (∀ c ∈ ([⟨str ("00:00:01.000"), str ("00:00:02.000"), str ("Hello")⟩,
        ⟨str ("00:01.000"), str ("00:02.500"), str ("Wor\nld!")⟩] : List Cue), validCue c) ∧
    parseSubtitleContent exSrtFail
        (convertCuesToVTT [⟨str ("00:00:01.000"), str ("00:00:02.000"), str ("Hello")⟩,
          ⟨str ("00:01.000"), str ("00:02.500"), str ("Wor\nld!")⟩]) (str ("vtt")) =
      [⟨str ("00:00:01.000"), str ("00:00:02.000"), str ("Hello")⟩,
        ⟨str ("00:01.000"), str ("00:02.500"), str ("Wor\nld!")⟩] :=
  ⟨by decide,
    parseSubtitleContent_convertCuesToVTT_roundtrip exSrtFail
      [⟨str ("00:00:01.000"), str ("00:00:02.000"), str ("Hello")⟩,
        ⟨str ("00:01.000"), str ("00:02.500"), str ("Wor\nld!")⟩] (by decide)⟩

/-- C2 counterexample: a cue with textual timestamps and the non-empty
text `7` does not survive the round trip — the parser drops the all-digit
line as a cue index, leaving empty text. -/
theorem parseSubtitleContent_convertCuesToVTT_roundtrip_fails :
    validTs (str ("00:00:01.000")) ∧ validTs (str ("00:00:02.000")) ∧
      str ("7") ≠ [] ∧
      parseSubtitleContent exSrtFail
          (convertCuesToVTT [⟨str ("00:00:01.000"), str ("00:00:02.000"), str ("7")⟩])
          (str ("vtt")) ≠
        [⟨str ("00:00:01.000"), str ("00:00:02.000"), str ("7")⟩] := by
  decide
